import Mathlib

/-!
Verification of the echo-server worker-pool repository (src/src/main.rs).

The Rust source is shallowly embedded below.  I/O streams are modelled as
explicit state (a script of read results and write results plus a log of the
slices handed to `write`), the mpsc channel as a queue plus a liveness flag,
threads and mutexes as explicit data, and the worker thread's loop body as a
function from the results of the fallible primitives (`lock`, `recv`) to the
sequence of events the iteration performs plus the loop outcome.
-/

namespace EchoServer

/-! ## Stream model and the echo collaborator

`fn echo(stream: &mut TcpStream, buffer: &mut [u8]) -> IoResult<usize>`
(src/src/main.rs lines 44-48) does
  `let read_bytes = stream.read(buffer)?;`
  `stream.write(&buffer[0..read_bytes])?;`
  `Ok(read_bytes)`
A stream is modelled by the script of results its successive `read` calls
return (`none` = I/O error, `some bs` = the bytes placed in the buffer, so
`read_bytes = bs.length`; an exhausted script means end-of-stream, where
`read` returns 0 bytes), the script of results its successive `write` calls
return (`none` = I/O error, `some k` = "k bytes written" as reported; an
exhausted script means the write succeeds reporting the full slice length),
and the log `written` of the slices actually passed to `write`, in call
order.  Bytes are `Nat` (the u8 range plays no role in the claims; the
source's 1024-byte buffer caps `bs.length`, which likewise plays no role). -/

structure StreamState where
  reads : List (Option (List Nat))
  writes : List (Option Nat)
  written : List (List Nat)
  deriving Repr, DecidableEq

/-- `stream.read(buffer)`: pop the next scripted read result.  An exhausted
script is end-of-stream: the read succeeds returning 0 bytes. -/
def StreamState.readStep (s : StreamState) : Option (List Nat) × StreamState :=
  match s.reads with
  | [] => (some [], s)
  | r :: rest => (r, { s with reads := rest })

/-- `stream.write(&buffer[0..read_bytes])`: log the slice passed in and pop
the next scripted write result (exhausted script: success reporting the full
length). -/
def StreamState.writeStep (s : StreamState) (data : List Nat) : Option Nat × StreamState :=
  match s.writes with
  | [] => (some data.length, { s with written := s.written ++ [data] })
  | w :: rest => (w, { s with writes := rest, written := s.written ++ [data] })

/-- `fn echo` (src/src/main.rs lines 44-48): read, write the read slice back,
return the number of bytes read.  The `?` operator is the `Except.error`
branches; the value reported by `write` is dropped on the floor exactly as in
the source (its `Result`'s `Ok` payload is never bound). -/
def echo (s : StreamState) : Except Unit Nat × StreamState :=
  match s.readStep with
  | (none, s1) => (Except.error (), s1)
  | (some bs, s1) =>
    match s1.writeStep bs with
    | (none, s2) => (Except.error (), s2)
    | (some _, s2) => (Except.ok bs.length, s2)

/-- Fuel-indexed unrolling of the `loop` in `fn handle` (src/src/main.rs
lines 26-42): call `echo`; break on `Ok(0)`, break on `Err(_)`, otherwise
loop.  Fuel is an embedding artifact only: every continuing iteration
consumes one scripted read, so `reads.length + 1` fuel always suffices
(`handleAux_fuel` below makes the definition fuel-independent). -/
def handleAux : Nat → StreamState → StreamState
  | 0, s => s
  | fuel + 1, s =>
    match echo s with
    | (Except.ok 0, s') => s'
    | (Except.error _, s') => s'
    | (Except.ok _, s') => handleAux fuel s'

/-- `fn handle` (src/src/main.rs lines 26-42). -/
def handle (s : StreamState) : StreamState :=
  handleAux (s.reads.length + 1) s

/-- If `echo` continues the loop (returns `Ok(n)` with `n > 0`), it consumed
exactly one scripted read: the read script strictly shrinks. -/
theorem echo_continue_reads {s s' : StreamState} {n : Nat}
    (h : echo s = (Except.ok (n + 1), s')) :
    s'.reads.length < s.reads.length := by
  rcases s with ⟨reads, writes, written⟩
  cases reads with
  | nil =>
    cases hw : writes with
    | nil =>
      rw [hw] at h
      simp [echo, StreamState.readStep, StreamState.writeStep] at h
    | cons w wrest =>
      rw [hw] at h
      cases w with
      | none => simp [echo, StreamState.readStep, StreamState.writeStep] at h
      | some k => simp [echo, StreamState.readStep, StreamState.writeStep] at h
  | cons r rest =>
    cases r with
    | none =>
      simp [echo, StreamState.readStep] at h
    | some bs =>
      cases hw : writes with
      | nil =>
        rw [hw] at h
        simp only [echo, StreamState.readStep, StreamState.writeStep] at h
        have h2 := congrArg Prod.snd h
        simp only [] at h2
        rw [← h2]
        simp
      | cons w wrest =>
        rw [hw] at h
        cases w with
        | none => simp [echo, StreamState.readStep, StreamState.writeStep] at h
        | some k =>
          simp only [echo, StreamState.readStep, StreamState.writeStep] at h
          have h2 := congrArg Prod.snd h
          simp only [] at h2
          rw [← h2]
          simp

/-! ## Work queue, messages and the thread pool

`type Task = Box<dyn FnOnce() + Send>` is an opaque zero-argument closure;
the embedding tracks only a work item's identity, as a `Nat`.  The mpsc
channel is its queued messages plus a liveness flag: in `std::sync::mpsc`,
`send` fails exactly when the receiver has been dropped, and `recv` fails
exactly when all senders have been dropped. -/

abbrev Task := Nat

/-- `enum Operation { Execute(Task), Terminate }` (src/src/main.rs lines
50-53). -/
inductive Operation where
  | Execute (task : Task)
  | Terminate
  deriving Repr, DecidableEq

/-- The mpsc channel: pending messages in FIFO order plus whether the
receiving end is still alive (when it is not, `send` fails). -/
structure Channel where
  queue : List Operation
  receiverAlive : Bool
  deriving Repr, DecidableEq

/-- `mpsc::Sender::send`: enqueue at the tail, failing iff the receiver has
been dropped. -/
def Channel.send (ch : Channel) (op : Operation) : Except Unit Channel :=
  if ch.receiverAlive then Except.ok { ch with queue := ch.queue ++ [op] }
  else Except.error ()

/-- A spawned worker thread's join handle: which worker it belongs to and the
identity of the `Arc<Mutex<Receiver>>` target its receiver clone points to
(`receiver` values are equal exactly when the clones share one underlying
receiver object). -/
structure ThreadHandle where
  workerId : Nat
  receiver : Nat
  deriving Repr, DecidableEq

/-- `struct Worker { id: usize, thread: Option<JoinHandle<()>> }`
(src/src/main.rs lines 106-109). -/
structure Worker where
  id : Nat
  thread : Option ThreadHandle
  deriving Repr, DecidableEq

/-- `Worker::new(id, receiver)` (src/src/main.rs lines 113-139): spawn the
thread wired to this receiver clone and store the join handle in the
`Option`. -/
def Worker.new (id : Nat) (receiver : Nat) : Worker :=
  { id := id, thread := some { workerId := id, receiver := receiver } }

/-- `struct ThreadPool { workers: Vec<Worker>, sender: ... }` (src/src/main.rs
lines 57-60); the sender handle needs no state of its own here because the
channel is passed explicitly to the operations that use it. -/
structure ThreadPool where
  workers : List Worker
  deriving Repr, DecidableEq

/-- `ThreadPool::new(size)` (src/src/main.rs lines 63-73).  `assert!(size >
0)` is the `none` result (a panic never yields a pool).  `rcv` is the
identity of the single `Arc::new(Mutex::new(receiver))` allocation; every
worker is wired to a clone of it. -/
def ThreadPool.new (size : Nat) (rcv : Nat) : Option ThreadPool :=
  if size = 0 then none
  else some { workers := (List.range size).map (fun id => Worker.new id rcv) }

/-- `ThreadPool::execute` (src/src/main.rs lines 75-87): wrap the task in
`Operation::Execute`, send it, and on a send error print a rejection line.
The Rust function returns `()`; correspondingly the result type carries no
error component, only the updated channel and the log lines printed. -/
def ThreadPool.execute (ch : Channel) (task : Task) : Channel × List String :=
  match ch.send (Operation.Execute task) with
  | Except.ok ch' => (ch', [])
  | Except.error _ => (ch, ["Request rejected, could not enqueue new task"])

/-- The first loop of `Drop::drop` (src/src/main.rs lines 94-96): send
`Terminate` `n` times, `.unwrap()` panicking at the first send failure.  The
`Except.error` payload is the channel state at the panic. -/
def sendTerminates : Channel → Nat → Except Channel Channel
  | ch, 0 => Except.ok ch
  | ch, n + 1 =>
    match ch.send Operation.Terminate with
    | Except.ok ch' => sendTerminates ch' n
    | Except.error _ => Except.error ch

/-- The second loop of `Drop::drop` (src/src/main.rs lines 98-102): for each
worker in order, `if let Some(h) = worker.thread.take() { h.join().unwrap() }`.
Returns the workers after the loop (each visited slot emptied) and the
handles joined, in join order. -/
def joinWorkers : List Worker → List Worker × List ThreadHandle
  | [] => ([], [])
  | w :: ws =>
    match w.thread with
    | some h =>
      let rest := joinWorkers ws
      ({ w with thread := none } :: rest.1, h :: rest.2)
    | none =>
      let rest := joinWorkers ws
      (w :: rest.1, rest.2)

/-- The observable result of a completed `Drop::drop`. -/
structure DropResult where
  pool : ThreadPool
  channel : Channel
  joined : List ThreadHandle
  deriving Repr, DecidableEq

/-- `impl Drop for ThreadPool` (src/src/main.rs lines 90-104): send one
`Terminate` per worker (panicking via `unwrap` on a send failure, in which
case the join loop is never reached — the `Except.error` payload is the
pool and channel exactly as they were at the panic), then join every worker
in vector order. -/
def ThreadPool.drop (p : ThreadPool) (ch : Channel) :
    Except (ThreadPool × Channel) DropResult :=
  match sendTerminates ch p.workers.length with
  | Except.error chPanic => Except.error (p, chPanic)
  | Except.ok ch' =>
    let j := joinWorkers p.workers
    Except.ok { pool := { p with workers := j.1 }, channel := ch', joined := j.2 }

/-! ## The worker thread's loop

The loop body (src/src/main.rs lines 115-133) is

  `if let Some(op_res) = receiver.lock().ok().map(|r| r.recv()) { match ... }`

Its two fallible primitives, `lock()` and `recv()`, are inputs here; the
iteration maps their results to the sequence of events it performs plus
whether the loop continues or breaks.  Lock-release placement: the
`MutexGuard` `r` is the parameter of the `map` closure, so it is dropped
when that closure returns — after `recv()` but before the `match op_res`
arms run any log line or task.  A poisoned lock makes `.ok()` yield `None`,
so the `if let` body is skipped entirely: no recv, no event, loop
continues. -/

inductive LockResult where
  | acquired
  | poisoned
  deriving Repr, DecidableEq

inductive RecvResult where
  | msg (op : Operation)
  | closed
  deriving Repr, DecidableEq

inductive Event where
  | lockAcquire
  | recvCall
  | lockRelease
  | logLine (line : String)
  | execTask (task : Task)
  deriving Repr, DecidableEq

inductive Outcome where
  | continueLoop
  | exitLoop
  deriving Repr, DecidableEq

/-- One iteration of the worker loop (src/src/main.rs lines 115-132). -/
def workerIteration (id : Nat) (lock : LockResult) (recv : RecvResult) :
    List Event × Outcome :=
  match lock with
  | LockResult.poisoned => ([], Outcome.continueLoop)
  | LockResult.acquired =>
    match recv with
    | RecvResult.msg (Operation.Execute task) =>
      ([Event.lockAcquire, Event.recvCall, Event.lockRelease,
        Event.logLine ("Worker " ++ toString id ++ " starts processing new request"),
        Event.execTask task],
       Outcome.continueLoop)
    | RecvResult.msg Operation.Terminate =>
      ([Event.lockAcquire, Event.recvCall, Event.lockRelease,
        Event.logLine ("Worker " ++ toString id ++ " received terminate signal")],
       Outcome.exitLoop)
    | RecvResult.closed =>
      ([Event.lockAcquire, Event.recvCall, Event.lockRelease,
        Event.logLine "Could not establish connection"],
       Outcome.continueLoop)

/-- The worker loop run against a script of primitive results, one pair per
iteration: perform the iteration's events, stop at the first `exitLoop`,
otherwise keep looping through the script. -/
def workerRun (id : Nat) : List (LockResult × RecvResult) → List Event
  | [] => []
  | step :: rest =>
    match workerIteration id step.1 step.2 with
    | (events, Outcome.exitLoop) => events
    | (events, Outcome.continueLoop) => events ++ workerRun id rest

/-- Scan an event list with a lock-held flag; `true` iff some task executes
while the lock is held. -/
def execWhileHeld : List Event → Bool → Bool
  | [], _ => false
  | Event.lockAcquire :: es, _ => execWhileHeld es true
  | Event.lockRelease :: es, _ => execWhileHeld es false
  | Event.execTask _ :: es, held => held || execWhileHeld es held
  | _ :: es, held => execWhileHeld es held

/-! ## Lemmas about the handle loop -/

/-- `handleAux` does not depend on the fuel once the fuel exceeds the length
of the read script. -/
theorem handleAux_fuel (f1 : Nat) :
    ∀ (f2 : Nat) (s : StreamState), s.reads.length < f1 → s.reads.length < f2 →
      handleAux f1 s = handleAux f2 s := by
  induction f1 with
  | zero =>
    intro f2 s h1 h2
    omega
  | succ a ih =>
    intro f2 s h1 h2
    cases f2 with
    | zero => omega
    | succ b =>
      simp only [handleAux]
      rcases hecho : echo s with ⟨res, s'⟩
      cases res with
      | error e => rfl
      | ok n =>
        cases n with
        | zero => rfl
        | succ m =>
          have hlt := echo_continue_reads hecho
          exact ih b s' (by omega) (by omega)

/-- The loop in `handle` stops when `echo` returns `Ok(0)`. -/
theorem handle_stop_zero {s s' : StreamState} (h : echo s = (Except.ok 0, s')) :
    handle s = s' := by
  unfold handle
  simp only [handleAux]
  rw [h]

/-- The loop in `handle` stops when `echo` returns an error. -/
theorem handle_stop_error {s s' : StreamState} {e : Unit}
    (h : echo s = (Except.error e, s')) : handle s = s' := by
  unfold handle
  simp only [handleAux]
  rw [h]

/-- The loop in `handle` keeps going when `echo` returns `Ok(n)`, `n > 0`. -/
theorem handle_continue {s s' : StreamState} {n : Nat}
    (h : echo s = (Except.ok (n + 1), s')) : handle s = handle s' := by
  unfold handle
  have h1 : handleAux (s.reads.length + 1) s = handleAux s.reads.length s' := by
    simp only [handleAux]
    rw [h]
    rfl
  rw [h1]

  exact handleAux_fuel s.reads.length (s'.reads.length + 1) s'
    (echo_continue_reads h) (by omega)

/-- The chunks a run of `handle` reads (and hence writes back) from a
scripted stream that never errors: every chunk up to and including the first
zero-byte read; an exhausted script ends in the end-of-stream zero-byte
read. -/
def chunksUntilEmpty : List (List Nat) → List (List Nat)
  | [] => [[]]
  | [] :: _ => [[]]
  | bs :: rest => bs :: chunksUntilEmpty rest

/-- On an error-free stream, `handle` writes back exactly the chunks it
read, in order, ending with the zero-byte read that stopped it. -/
theorem handle_written (chunks : List (List Nat)) :
    ∀ w0 : List (List Nat),
      (handle { reads := chunks.map some, writes := [], written := w0 }).written
        = w0 ++ chunksUntilEmpty chunks := by
  induction chunks with
  | nil =>
    intro w0
    simp only [List.map_nil]
    have h : echo { reads := [], writes := [], written := w0 }
        = (Except.ok 0, { reads := [], writes := [], written := w0 ++ [[]] }) := rfl
    rw [handle_stop_zero h]
    simp [chunksUntilEmpty]
  | cons bs rest ih =>
    intro w0
    cases bs with
    | nil =>
      simp only [List.map_cons]
      have h : echo { reads := some [] :: rest.map some, writes := [], written := w0 }
          = (Except.ok 0, { reads := rest.map some, writes := [], written := w0 ++ [[]] }) := rfl
      rw [handle_stop_zero h]
      simp [chunksUntilEmpty]
    | cons c cs =>
      simp only [List.map_cons]
      have h : echo { reads := some (c :: cs) :: rest.map some, writes := [], written := w0 }
          = (Except.ok (cs.length + 1),
             { reads := rest.map some, writes := [], written := w0 ++ [c :: cs] }) := rfl
      rw [handle_continue h, ih (w0 ++ [c :: cs])]
      simp [chunksUntilEmpty]

/-! ## Lemmas about shutdown -/

/-- While the receiver is alive, sending `n` terminate messages succeeds and
appends exactly `n` `Terminate`s to the queue. -/
theorem sendTerminates_alive (n : Nat) :
    ∀ q : List Operation,
      sendTerminates { queue := q, receiverAlive := true } n
        = Except.ok { queue := q ++ List.replicate n Operation.Terminate,
                      receiverAlive := true } := by
  induction n with
  | zero =>
    intro q
    simp [sendTerminates]
  | succ m ih =>
    intro q
    simp only [sendTerminates, Channel.send, if_pos]
    rw [ih (q ++ [Operation.Terminate])]
    simp [List.replicate_succ]

/-- The join loop empties every visited slot and collects exactly the handles
that were present. -/
theorem joinWorkers_spec :
    ∀ ws : List Worker,
      joinWorkers ws = (ws.map (fun w => { w with thread := none }),
                        ws.filterMap Worker.thread) := by
  intro ws
  induction ws with
  | nil => simp [joinWorkers]
  | cons w rest ih =>
    cases hw : w.thread with
    | none =>
      rcases w with ⟨id, thread⟩
      cases hw
      simp [joinWorkers, ih, List.filterMap_cons]
    | some h =>
      simp [joinWorkers, hw, ih, List.filterMap_cons]

/-- Joining a list of workers whose slots are all empty joins nothing and
changes nothing. -/
theorem joinWorkers_none :
    ∀ ws : List Worker, (∀ w ∈ ws, w.thread = none) → joinWorkers ws = (ws, []) := by
  intro ws
  induction ws with
  | nil =>
    intro _
    simp [joinWorkers]
  | cons w rest ih =>
    intro hall
    have hw : w.thread = none := hall w (by simp)
    rcases w with ⟨id, thread⟩
    cases hw
    rw [joinWorkers]
    simp only []
    rw [ih (fun w hmem => hall w (by simp [hmem]))]

/-- The worker list a pool of size `size > 0` is constructed with. -/
theorem pool_new_workers (size rcv : Nat) (h : size ≠ 0) :
    ThreadPool.new size rcv
      = some { workers := (List.range size).map (fun id => Worker.new id rcv) } := by
  simp [ThreadPool.new, h]

/-- Joining the freshly constructed workers: every slot is emptied and the
handles come back in id order, all wired to the same receiver. -/
theorem joinWorkers_fresh (rcv : Nat) :
    ∀ l : List Nat,
      joinWorkers (l.map (fun id => Worker.new id rcv))
        = (l.map (fun id => { id := id, thread := none }),
           l.map (fun id => { workerId := id, receiver := rcv })) := by
  intro l
  induction l with
  | nil => simp [joinWorkers]
  | cons a rest ih =>
    simp only [Worker.new] at ih
    simp [joinWorkers, Worker.new, ih]

/-- Claim C3: pool destruction on a live channel sends exactly one `Terminate` per
worker — `size` messages total, appended after whatever is already queued —
and then joins every worker thread in id order `0..size-1`; when it returns,
every worker's thread slot has been joined and emptied. -/
theorem drop_sends_stop_per_worker_then_joins_in_order
    (size rcv : Nat) (q : List Operation) (p : ThreadPool)
    (hp : ThreadPool.new size rcv = some p) :
    ∃ r : DropResult,
      ThreadPool.drop p { queue := q, receiverAlive := true } = Except.ok r ∧
      r.channel = { queue := q ++ List.replicate size Operation.Terminate,
                    receiverAlive := true } ∧
      r.joined.map ThreadHandle.workerId = List.range size ∧
      r.joined.length = size ∧
      ∀ w ∈ r.pool.workers, w.thread = none := by
  by_cases hsz : size = 0
  · rw [hsz] at hp
    simp [ThreadPool.new] at hp
  · rw [pool_new_workers size rcv hsz] at hp
    obtain rfl := Option.some.inj hp
    refine ⟨{ pool := { workers := (List.range size).map (fun id => { id := id, thread := none }) },
              channel := { queue := q ++ List.replicate size Operation.Terminate,
                           receiverAlive := true },
              joined := (List.range size).map (fun id => { workerId := id, receiver := rcv }) },
            ?_, rfl, ?_, ?_, ?_⟩
    · rw [ThreadPool.drop]
      simp only [List.length_map, List.length_range]
      rw [sendTerminates_alive size q]
      simp only []
      rw [joinWorkers_fresh rcv (List.range size)]
    · simp [List.map_map, Function.comp_def]
    · simp
    · intro w hw
      simp only [List.mem_map] at hw
      obtain ⟨id, _, rfl⟩ := hw
      rfl

/-- Claim C9: if sending a `Terminate` during pool destruction fails (receiver
gone), the destructor panics via `unwrap`: the join loop is never reached,
the pool's thread slots are exactly as they were — and, unlike `execute`,
which on the very same dead channel logs the rejection and returns normally,
the failure is not recovered. -/
theorem drop_panics_on_terminate_send_failure
    (p : ThreadPool) (q : List Operation) (task : Task)
    (h : p.workers.length ≠ 0) :
    ThreadPool.drop p { queue := q, receiverAlive := false }
      = Except.error (p, { queue := q, receiverAlive := false }) ∧
    ThreadPool.execute { queue := q, receiverAlive := false } task
      = ({ queue := q, receiverAlive := false },
         ["Request rejected, could not enqueue new task"]) := by
  constructor
  · rw [ThreadPool.drop]
    cases hl : p.workers.length with
    | zero => exact absurd hl h
    | succ m =>
      simp [sendTerminates, Channel.send]
  · simp [ThreadPool.execute, Channel.send]

/-- Claim C10: each worker's join handle lives in an `Option` that the destructor
`take`s before joining, so after a successful destruction every thread slot
is `none`, the joined handles are pairwise distinct (each thread joined at
most once), and running the join loop again joins nothing. -/
theorem worker_threads_taken_and_joined_once
    (size rcv : Nat) (q : List Operation) (p : ThreadPool)
    (hp : ThreadPool.new size rcv = some p) :
    ∃ r : DropResult,
      ThreadPool.drop p { queue := q, receiverAlive := true } = Except.ok r ∧
      (∀ w ∈ r.pool.workers, w.thread = none) ∧
      r.joined.Nodup ∧
      joinWorkers r.pool.workers = (r.pool.workers, []) := by
  by_cases hsz : size = 0
  · rw [hsz] at hp
    simp [ThreadPool.new] at hp
  · rw [pool_new_workers size rcv hsz] at hp
    obtain rfl := Option.some.inj hp
    refine ⟨{ pool := { workers := (List.range size).map (fun id => { id := id, thread := none }) },
              channel := { queue := q ++ List.replicate size Operation.Terminate,
                           receiverAlive := true },
              joined := (List.range size).map (fun id => { workerId := id, receiver := rcv }) },
            ?_, ?_, ?_, ?_⟩
    · rw [ThreadPool.drop]
      simp only [List.length_map, List.length_range]
      rw [sendTerminates_alive size q]
      simp only []
      rw [joinWorkers_fresh rcv (List.range size)]
    · intro w hw
      simp only [List.mem_map] at hw
      obtain ⟨id, _, rfl⟩ := hw
      rfl
    · refine List.Nodup.map ?_ (List.nodup_range size)
      intro a b hab
      simpa using congrArg ThreadHandle.workerId hab
    · apply joinWorkers_none
      intro w hw
      simp only [List.mem_map] at hw
      obtain ⟨id, _, rfl⟩ := hw
      rfl

/-! ## Claim theorems: worker loop -/

/-- Claim C1, counterexample: a channel-closed receive failure is not terminal in
the code.  The iteration that observes it continues the loop, and on the
very next iteration the worker dequeues and executes another message (task
7 here) — refuting "after observing a receive failure, the worker performs
no further iterations". -/
theorem worker_recv_failure_not_terminal_cex :
    (workerIteration 0 LockResult.acquired RecvResult.closed).2 = Outcome.continueLoop ∧
    Event.execTask 7 ∈ workerRun 0
      [(LockResult.acquired, RecvResult.closed),
       (LockResult.acquired, RecvResult.msg (Operation.Execute 7))] := by
  constructor
  · rfl
  · simp [workerRun, workerIteration]

/-- Claim C1 as amended: when `receive()` fails with channel-closed, the worker
logs the condition and continues its loop — the failure is not terminal, and
the rest of the run proceeds exactly as if the failed iteration had not
happened (apart from the log line). -/
theorem worker_recv_failure_logs_and_continues (id : Nat)
    (rest : List (LockResult × RecvResult)) :
    workerIteration id LockResult.acquired RecvResult.closed
      = ([Event.lockAcquire, Event.recvCall, Event.lockRelease,
          Event.logLine "Could not establish connection"], Outcome.continueLoop) ∧
    workerRun id ((LockResult.acquired, RecvResult.closed) :: rest)
      = [Event.lockAcquire, Event.recvCall, Event.lockRelease,
         Event.logLine "Could not establish connection"] ++ workerRun id rest := by
  exact ⟨rfl, rfl⟩

/-- Claim C2: in every worker iteration the receiver lock is released before any
claimed work item runs: the scan `execWhileHeld` never sees a task execute
while the lock is held, and whenever a task executes at all, the iteration's
events are exactly acquire, recv, release, log, execute — release strictly
before execution. -/
theorem worker_lock_released_before_task_execution (id : Nat)
    (lock : LockResult) (recv : RecvResult) :
    execWhileHeld (workerIteration id lock recv).1 false = false ∧
    ∀ task, Event.execTask task ∈ (workerIteration id lock recv).1 →
      (workerIteration id lock recv).1
        = [Event.lockAcquire, Event.recvCall, Event.lockRelease,
           Event.logLine ("Worker " ++ toString id ++ " starts processing new request"),
           Event.execTask task] := by
  cases lock with
  | poisoned =>
    refine ⟨rfl, ?_⟩
    intro task h
    simp [workerIteration] at h
  | acquired =>
    cases recv with
    | closed =>
      refine ⟨rfl, ?_⟩
      intro task h
      simp [workerIteration] at h
    | msg op =>
      cases op with
      | Terminate =>
        refine ⟨rfl, ?_⟩
        intro task h
        simp [workerIteration] at h
      | Execute t =>
        refine ⟨rfl, ?_⟩
        intro task h
        have ht : task = t := by simpa [workerIteration] using h
        subst ht
        rfl

/-- Witness for C2 at a concrete iteration: worker 0 dequeues task 7. -/
theorem worker_lock_released_before_task_execution_witness :
    execWhileHeld (workerIteration 0 LockResult.acquired
      (RecvResult.msg (Operation.Execute 7))).1 false = false ∧
    (workerIteration 0 LockResult.acquired (RecvResult.msg (Operation.Execute 7))).1
      = [Event.lockAcquire, Event.recvCall, Event.lockRelease,
         Event.logLine ("Worker " ++ toString 0 ++ " starts processing new request"),
         Event.execTask 7] :=
  ⟨(worker_lock_released_before_task_execution 0 LockResult.acquired
      (RecvResult.msg (Operation.Execute 7))).1,
   (worker_lock_released_before_task_execution 0 LockResult.acquired
      (RecvResult.msg (Operation.Execute 7))).2 7 (by simp [workerIteration])⟩

/-- Claim C7: a failed (poisoned) lock acquisition makes the iteration a complete
no-op — no recv, no log, no task, no exit — and the worker loops again,
processing the rest of its run unchanged. -/
theorem worker_poisoned_lock_skips_iteration (id : Nat) (recv : RecvResult)
    (rest : List (LockResult × RecvResult)) :
    workerIteration id LockResult.poisoned recv = ([], Outcome.continueLoop) ∧
    workerRun id ((LockResult.poisoned, recv) :: rest) = workerRun id rest := by
  exact ⟨rfl, rfl⟩

/-! ## Claim theorems: pool construction and submission -/

/-- Claim C5: construction via `ThreadPool.new 0` fails fast (the `assert!` panic never yields a
pool), and for every positive size construction succeeds with exactly `size`
workers carrying distinct ids `0..size-1`, every worker's thread wired to
the same single shared receiver object. -/
theorem pool_new_fails_zero_succeeds_positive (size rcv : Nat) (h : 0 < size) :
    ThreadPool.new 0 rcv = none ∧
    ∃ p, ThreadPool.new size rcv = some p ∧
      p.workers.length = size ∧
      p.workers.map Worker.id = List.range size ∧
      (p.workers.map Worker.id).Nodup ∧
      ∀ w ∈ p.workers, w.thread = some { workerId := w.id, receiver := rcv } := by
  have hmap : ((List.range size).map (fun id => Worker.new id rcv)).map Worker.id
      = List.range size := by
    simp [List.map_map, Function.comp_def, Worker.new]
  constructor
  · rfl
  · refine ⟨{ workers := (List.range size).map (fun id => Worker.new id rcv) },
      pool_new_workers size rcv (by omega), by simp, hmap, ?_, ?_⟩
    · rw [hmap]
      exact List.nodup_range size
    · intro w hw
      simp only [List.mem_map] at hw
      obtain ⟨id, _, rfl⟩ := hw
      rfl

/-- Witness for C5 at size 3. -/
theorem pool_new_fails_zero_succeeds_positive_witness :
    ThreadPool.new 0 0 = none ∧
    ∃ p, ThreadPool.new 3 0 = some p ∧
      p.workers.length = 3 ∧
      p.workers.map Worker.id = List.range 3 ∧
      (p.workers.map Worker.id).Nodup ∧
      ∀ w ∈ p.workers, w.thread = some { workerId := w.id, receiver := 0 } :=
  pool_new_fails_zero_succeeds_positive 3 0 (by decide)

/-- Claim C6: `execute` wraps the submitted item in `Operation::Execute` and sends
it; a send failure is logged and the item dropped.  The operation's result
type (`Channel × List String`, mirroring Rust's `()` return) carries no
error: nothing is ever propagated to the caller. -/
theorem execute_wraps_and_never_errors (ch : Channel) (task : Task) :
    (ch.receiverAlive = true →
      ThreadPool.execute ch task
        = ({ queue := ch.queue ++ [Operation.Execute task], receiverAlive := true }, [])) ∧
    (ch.receiverAlive = false →
      ThreadPool.execute ch task
        = (ch, ["Request rejected, could not enqueue new task"])) := by
  rcases ch with ⟨qq, alive⟩
  constructor
  · intro halive
    cases halive
    simp [ThreadPool.execute, Channel.send]
  · intro hdead
    cases hdead
    simp [ThreadPool.execute, Channel.send]

/-- Witness for C6: one submission on a live channel, one on a dead one. -/
theorem execute_wraps_and_never_errors_witness :
    ThreadPool.execute { queue := [], receiverAlive := true } 5
      = ({ queue := [] ++ [Operation.Execute 5], receiverAlive := true }, []) ∧
    ThreadPool.execute { queue := [], receiverAlive := false } 5
      = ({ queue := [], receiverAlive := false },
         ["Request rejected, could not enqueue new task"]) :=
  ⟨(execute_wraps_and_never_errors { queue := [], receiverAlive := true } 5).1 rfl,
   (execute_wraps_and_never_errors { queue := [], receiverAlive := false } 5).2 rfl⟩

/-- Witness for C3 at a pool of size 2. -/
theorem drop_sends_stop_per_worker_then_joins_in_order_witness :
    ∃ r : DropResult,
      ThreadPool.drop { workers := [Worker.new 0 0, Worker.new 1 0] }
          { queue := [], receiverAlive := true } = Except.ok r ∧
      r.channel = { queue := [] ++ List.replicate 2 Operation.Terminate,
                    receiverAlive := true } ∧
      r.joined.map ThreadHandle.workerId = List.range 2 ∧
      r.joined.length = 2 ∧
      ∀ w ∈ r.pool.workers, w.thread = none :=
  drop_sends_stop_per_worker_then_joins_in_order 2 0 []
    { workers := [Worker.new 0 0, Worker.new 1 0] } (by rfl)

/-- Witness for C9 at a pool of size 1 whose channel receiver is gone. -/
theorem drop_panics_on_terminate_send_failure_witness :
    ThreadPool.drop { workers := [Worker.new 0 0] } { queue := [], receiverAlive := false }
      = Except.error ({ workers := [Worker.new 0 0] }, { queue := [], receiverAlive := false }) ∧
    ThreadPool.execute { queue := [], receiverAlive := false } 5
      = ({ queue := [], receiverAlive := false },
         ["Request rejected, could not enqueue new task"]) :=
  drop_panics_on_terminate_send_failure { workers := [Worker.new 0 0] } [] 5 (by decide)

/-- Witness for C10 at a pool of size 2. -/
theorem worker_threads_taken_and_joined_once_witness :
    ∃ r : DropResult,
      ThreadPool.drop { workers := [Worker.new 0 0, Worker.new 1 0] }
          { queue := [], receiverAlive := true } = Except.ok r ∧
      (∀ w ∈ r.pool.workers, w.thread = none) ∧
      r.joined.Nodup ∧
      joinWorkers r.pool.workers = (r.pool.workers, []) :=
  worker_threads_taken_and_joined_once 2 0 []
    { workers := [Worker.new 0 0, Worker.new 1 0] } (by rfl)

/-! ## Claim theorems: echo I/O loop -/

/-- Reading never touches the write log. -/
theorem readStep_written (s : StreamState) : (s.readStep).2.written = s.written := by
  rcases s with ⟨r, w, wr⟩
  cases r with
  | nil => rfl
  | cons a l => rfl

/-- Writing always records exactly the slice passed in, whether or not the
write succeeds. -/
theorem writeStep_written (s : StreamState) (data : List Nat) :
    ((s.writeStep data).2).written = s.written ++ [data] := by
  rcases s with ⟨r, w, wr⟩
  cases w with
  | nil => rfl
  | cons a l => rfl

/-- Claim C4: the connection handler echoes verbatim and stops exactly on a
zero-byte read or an I/O error.  (1) Whenever a read yields bytes `bs`, the
very same slice `bs` is passed to `write`.  (2)/(3) `handle`'s loop stops as
soon as `echo` reports zero bytes read or an error, returning without
touching the stream again.  (4) Otherwise it loops.  (5) Globally, on an
error-free stream the slices written are exactly the chunks read, in order,
up to and including the zero-byte read that ends the connection. -/
theorem handle_echoes_until_zero_or_error :
    (∀ (s : StreamState) (bs : List Nat) (s1 : StreamState),
       s.readStep = (some bs, s1) → (echo s).2.written = s.written ++ [bs]) ∧
    (∀ s s' : StreamState, echo s = (Except.ok 0, s') → handle s = s') ∧
    (∀ (s : StreamState) (e : Unit) (s' : StreamState),
       echo s = (Except.error e, s') → handle s = s') ∧
    (∀ (s : StreamState) (n : Nat) (s' : StreamState),
       echo s = (Except.ok (n + 1), s') → handle s = handle s') ∧
    (∀ (chunks : List (List Nat)) (w0 : List (List Nat)),
       (handle { reads := List.map some chunks, writes := [], written := w0 }).written
         = w0 ++ chunksUntilEmpty chunks) := by
  refine ⟨?_, fun s s' h => handle_stop_zero h, fun s e s' h => handle_stop_error h,
    fun s n s' h => handle_continue h, handle_written⟩
  intro s bs s1 hr
  have hs1 : s1.written = s.written := by
    have := readStep_written s
    rw [hr] at this
    exact this
  simp only [echo]
  rw [hr]
  show (match s1.writeStep bs with
    | (none, s2) => ((Except.error () : Except Unit Nat), s2)
    | (some _, s2) => (Except.ok bs.length, s2)).2.written = s.written ++ [bs]
  rcases hw : s1.writeStep bs with ⟨w, s2⟩
  have hs2 : s2.written = s1.written ++ [bs] := by
    have := writeStep_written s1 bs
    rw [hw] at this
    exact this
  cases w with
  | none =>
    show s2.written = s.written ++ [bs]
    rw [hs2, hs1]
  | some k =>
    show s2.written = s.written ++ [bs]
    rw [hs2, hs1]

/-- Witness for C4: a per-iteration echo of chunk `[7]`, a stop on a
zero-byte read, a stop on a read error, one continuing iteration, and a full
error-free run over the chunks `[1,2]` then `[3]`. -/
theorem handle_echoes_until_zero_or_error_witness :
    (echo { reads := [some [7]], writes := [], written := [] }).2.written = [] ++ [[7]] ∧
    handle { reads := [some []], writes := [], written := [] }
      = { reads := [], writes := [], written := [[]] } ∧
    handle { reads := [none], writes := [], written := [] }
      = { reads := [], writes := [], written := [] } ∧
    handle { reads := [some [7]], writes := [], written := [] }
      = handle { reads := [], writes := [], written := [[7]] } ∧
    (handle { reads := List.map some [[1, 2], [3]], writes := [], written := [] }).written
      = [] ++ chunksUntilEmpty [[1, 2], [3]] :=
  ⟨handle_echoes_until_zero_or_error.1 _ [7] { reads := [], writes := [], written := [] } rfl,
   handle_echoes_until_zero_or_error.2.1 _ _ rfl,
   handle_echoes_until_zero_or_error.2.2.1 _ () _ rfl,
   handle_echoes_until_zero_or_error.2.2.2.1 _ 0 _ rfl,
   handle_echoes_until_zero_or_error.2.2.2.2 [[1, 2], [3]] []⟩

/-- Claim C8: whenever `echo` returns `Ok(n)`, `n` is the number of bytes the read
delivered — never the count the write reported.  (1) Generally: an `Ok`
result names the read chunk's length and the write log has gained exactly
that chunk.  (2) With a read of `bs` and a write scripted to report an
arbitrary count `k`, the result is `Ok(bs.length)` regardless of `k`.
(3) A zero-byte read (here: end of stream) still performs a write of the
empty slice, (4) and then returns `Ok(0)`. -/
theorem echo_ok_is_read_count :
    (∀ (s : StreamState) (n : Nat) (s' : StreamState), echo s = (Except.ok n, s') →
       ∃ bs, (s.readStep).1 = some bs ∧ n = bs.length ∧ s'.written = s.written ++ [bs]) ∧
    (∀ (bs : List Nat) (rest : List (Option (List Nat))) (k : Nat)
       (wrest : List (Option Nat)) (w0 : List (List Nat)),
       echo { reads := some bs :: rest, writes := some k :: wrest, written := w0 }
         = (Except.ok bs.length, { reads := rest, writes := wrest, written := w0 ++ [bs] })) ∧
    (∀ (writes : List (Option Nat)) (w0 : List (List Nat)),
       ((echo { reads := [], writes := writes, written := w0 }).2).written = w0 ++ [[]]) ∧
    (∀ (k : Nat) (wrest : List (Option Nat)) (w0 : List (List Nat)),
       echo { reads := [], writes := some k :: wrest, written := w0 }
         = (Except.ok 0, { reads := [], writes := wrest, written := w0 ++ [[]] })) := by
  refine ⟨?_, fun bs rest k wrest w0 => rfl, ?_, fun k wrest w0 => rfl⟩
  · intro s n s' h
    rcases s with ⟨reads, writes, written⟩
    cases reads with
    | nil =>
      refine ⟨[], rfl, ?_⟩
      cases writes with
      | nil =>
        simp only [echo, StreamState.readStep, StreamState.writeStep] at h
        rw [Prod.ext_iff] at h
        obtain ⟨h1, h2⟩ := h
        simp only [] at h1 h2
        obtain rfl := Except.ok.inj h1
        rw [← h2]
        exact ⟨rfl, rfl⟩
      | cons w wrest =>
        cases w with
        | none => simp [echo, StreamState.readStep, StreamState.writeStep] at h
        | some k =>
          simp only [echo, StreamState.readStep, StreamState.writeStep] at h
          rw [Prod.ext_iff] at h
          obtain ⟨h1, h2⟩ := h
          simp only [] at h1 h2
          obtain rfl := Except.ok.inj h1
          rw [← h2]
          exact ⟨rfl, rfl⟩
    | cons r rest =>
      cases r with
      | none => simp [echo, StreamState.readStep] at h
      | some bs =>
        refine ⟨bs, rfl, ?_⟩
        cases writes with
        | nil =>
          simp only [echo, StreamState.readStep, StreamState.writeStep] at h
          rw [Prod.ext_iff] at h
          obtain ⟨h1, h2⟩ := h
          simp only [] at h1 h2
          obtain rfl := Except.ok.inj h1
          rw [← h2]
          exact ⟨rfl, rfl⟩
        | cons w wrest =>
          cases w with
          | none => simp [echo, StreamState.readStep, StreamState.writeStep] at h
          | some k =>
            simp only [echo, StreamState.readStep, StreamState.writeStep] at h
            rw [Prod.ext_iff] at h
            obtain ⟨h1, h2⟩ := h
            simp only [] at h1 h2
            obtain rfl := Except.ok.inj h1
            rw [← h2]
            exact ⟨rfl, rfl⟩
  · intro writes w0
    cases writes with
    | nil => rfl
    | cons w wrest =>
      cases w with
      | none => rfl
      | some k => rfl

/-- Witness for C8: the write is scripted to report 999 bytes written, yet
`echo` returns `Ok(2)`, the length of the chunk `[5, 6]` it read; and on a
zero-byte read the empty slice is still written before `Ok(0)`. -/
theorem echo_ok_is_read_count_witness :
    (∃ bs, (StreamState.readStep { reads := [some [5, 6]], writes := [some 999], written := [] }).1 = some bs ∧
      2 = bs.length ∧
      ({ reads := [], writes := [], written := [[5, 6]] } : StreamState).written
        = ({ reads := [some [5, 6]], writes := [some 999], written := [] } : StreamState).written ++ [bs]) ∧
    echo { reads := [some [5, 6]], writes := [some 999], written := [] }
      = (Except.ok 2, { reads := [], writes := [], written := [[5, 6]] }) ∧
    echo { reads := [], writes := [some 999], written := [] }
      = (Except.ok 0, { reads := [], writes := [], written := [[]] }) :=
  ⟨echo_ok_is_read_count.1 { reads := [some [5, 6]], writes := [some 999], written := [] }
      2 { reads := [], writes := [], written := [[5, 6]] } rfl,
   echo_ok_is_read_count.2.1 [5, 6] [] 999 [] [],
   echo_ok_is_read_count.2.2.2 999 [] []⟩

end EchoServer
